import Mathlib

/-!
Verification development for the antivirus scan engine of the
nexashield-app repository (modules/tabs/antivirus_logic.py,
modules/tabs/antivirus.py, modules/database.py).

Shallow embedding conventions:
* The SQLite signature table is a list of `Signature` rows;
  `check_signature` mirrors `DatabaseManager.check_signature`
  (`SELECT name, type, severity FROM signatures WHERE hash=?`, first row).
* File contents are byte lists; SHA-256 hashing is an abstract parameter
  `sha256 : List Nat → String` (the Python streams the file through
  `hashlib.sha256` in 64KB chunks, which yields the digest of the whole
  content, so the digest is a function of the content alone).
* `readFile : String → Option (List Nat)` models opening/reading a file;
  `none` models `PermissionError`/`OSError` (permission denied, vanished,
  locked), which `ScanWorker.scan_file` catches and swallows.
* Wall-clock values (`datetime.datetime.now()`, `time.time()`-derived ETA
  strings) are supplied as explicit inputs (`now`, `eta`), since real time
  is outside the embedding.
-/

namespace Nexashield

/-- One row of the `signatures` table: hash is the unique key. -/
structure Signature where
  hash : String
  name : String
  stype : String
  severity : String
deriving DecidableEq, Repr

/-- DatabaseManager.check_signature: SELECT name, type, severity FROM
signatures WHERE hash=?; fetchone returns the first matching row or None. -/
def check_signature (db : List Signature) (file_hash : String) :
    Option (String × String × String) :=
  match db.find? (fun s => s.hash == file_hash) with
  | some s => some (s.name, s.stype, s.severity)
  | none => none

/-- The threat dict built by ScanWorker.scan_file:
keys path, name, type (here `ttype`), severity, method, time. -/
structure ThreatFinding where
  path : String
  name : String
  ttype : String
  severity : String
  method : String
  time : String
deriving DecidableEq, Repr

/-- os.path.basename for POSIX paths: the part after the last slash
(computed over the character list so it evaluates by kernel reduction). -/
def basename (p : String) : String :=
  ⟨p.toList.foldl (fun acc ch => if ch = '/' then [] else acc ++ [ch]) []⟩

/-- Number of occurrences of a character in a string
(Python `str.count` for a single-character needle). -/
def countChar (c : Char) (s : String) : Nat :=
  (s.toList.filter (fun x => x = c)).length

/-- Python `str.endswith` for one suffix. -/
def strEndsWith (s suffix : String) : Bool :=
  suffix.toList.isSuffixOf s.toList

/-- Python `str.lower` (ASCII case folding suffices for the extensions
and filenames involved). -/
def strLower (s : String) : String :=
  ⟨s.toList.map Char.toLower⟩

/-- The double-extension heuristic condition of ScanWorker.scan_file:
`filename.count('.') > 1 and filename.endswith(('.exe', '.bat', '.vbs'))`,
applied to the lowercased basename. -/
def doubleExt (filename : String) : Bool :=
  decide (countChar '.' filename > 1) &&
    (strEndsWith filename ".exe" || strEndsWith filename ".bat" ||
      strEndsWith filename ".vbs")

/-- ScanWorker.scan_file, the "hybrid detection engine".  In order:
read and hash the content (I/O failure is caught: result None);
signature lookup; double-extension heuristic; otherwise None.
`now` is the `datetime.datetime.now().strftime` timestamp of the call. -/
def scan_file (db : List Signature) (sha256 : List Nat → String)
    (readFile : String → Option (List Nat)) (now : String)
    (file_path : String) : Option ThreatFinding :=
  match readFile file_path with
  | none => none
  | some content =>
    let file_hash := sha256 content
    match check_signature db file_hash with
    | some (n, t, s) =>
      some ⟨file_path, n, t, s, "Signature", now⟩
    | none =>
      let filename := strLower (basename file_path)
      if doubleExt filename then
        some ⟨file_path, "Suspicious Double Extension", "Suspicious",
          "Medium", "Heuristic", now⟩
      else
        none

end Nexashield

namespace Nexashield

/-- C1: classify applies its steps in order and short-circuits on first
match: a signature hit returns the Signature-method finding carrying the
signature's name, category and severity (regardless of the filename);
otherwise a lowercased basename with more than one dot ending in
.exe/.bat/.vbs returns the Medium "Suspicious Double Extension" Heuristic
finding; otherwise the result is none. -/
theorem classify_order_short_circuit (db : List Signature)
    (sha256 : List Nat → String) (readFile : String → Option (List Nat))
    (now p : String) (c : List Nat) (n t s : String) :
    (readFile p = some c → check_signature db (sha256 c) = some (n, t, s) →
      scan_file db sha256 readFile now p =
        some ⟨p, n, t, s, "Signature", now⟩) ∧
    (readFile p = some c → check_signature db (sha256 c) = none →
      doubleExt (strLower (basename p)) = true →
      scan_file db sha256 readFile now p =
        some ⟨p, "Suspicious Double Extension", "Suspicious", "Medium",
          "Heuristic", now⟩) ∧
    (readFile p = some c → check_signature db (sha256 c) = none →
      doubleExt (strLower (basename p)) = false →
      scan_file db sha256 readFile now p = none) := by
  refine ⟨fun hr hs => ?_, fun hr hs hd => ?_, fun hr hs hd => ?_⟩
  · simp [scan_file, hr, hs]
  · simp [scan_file, hr, hs, hd]
  · simp [scan_file, hr, hs, hd]

/-- Witness for classify_order_short_circuit: a concrete signature store
and three concrete files exercising the three branches. -/
theorem classify_order_short_circuit_witness :
    (let db : List Signature := [⟨"hEICAR", "EICAR-Test-File", "Virus", "High"⟩]
     let sha : List Nat → String := fun bs => if bs = [1] then "hEICAR" else "h0"
     let rf : String → Option (List Nat) :=
       fun q => if q = "/d/eicar.com" then some [1] else some [2]
     scan_file db sha rf "12:00:00" "/d/eicar.com" =
        some ⟨"/d/eicar.com", "EICAR-Test-File", "Virus", "High",
          "Signature", "12:00:00"⟩ ∧
     scan_file db sha rf "12:00:00" "/d/invoice.pdf.exe" =
        some ⟨"/d/invoice.pdf.exe", "Suspicious Double Extension",
          "Suspicious", "Medium", "Heuristic", "12:00:00"⟩ ∧
     scan_file db sha rf "12:00:00" "/d/invoice.exe" = none) := by
  refine ⟨?_, ?_, ?_⟩
  · exact (classify_order_short_circuit _ _ _ _ _ [1] _ _ _).1
      (by decide) (by decide)
  · exact (classify_order_short_circuit _ _ _ _ _ [2]
      "x" "x" "x").2.1 (by decide) (by decide) (by decide)
  · exact (classify_order_short_circuit _ _ _ _ _ [2]
      "x" "x" "x").2.2 (by decide) (by decide) (by decide)

/-- The detection-relevant fields of a finding, i.e. everything except the
wall-clock `time` field. -/
def dropTime (f : ThreatFinding) : String × String × String × String × String :=
  (f.path, f.name, f.ttype, f.severity, f.method)

/-- Counterexample to C9 as stated: the finding dict carries a
`time` key set from `datetime.datetime.now()`, so two invocations of
scan_file on the same file content with the same signature set but at
different wall-clock seconds produce findings (not none) that differ
in a field. -/
theorem classify_time_field_cex :
    (let db : List Signature := []
     let sha : List Nat → String := fun _ => "h0"
     let rf : String → Option (List Nat) := fun _ => some [7]
     scan_file db sha rf "10:00:00" "invoice.pdf.exe" ≠
       scan_file db sha rf "10:00:01" "invoice.pdf.exe" ∧
     (scan_file db sha rf "10:00:00" "invoice.pdf.exe").isSome = true ∧
     (scan_file db sha rf "10:00:01" "invoice.pdf.exe").isSome = true) := by
  refine ⟨?_, by decide, by decide⟩
  intro h
  have := congrArg (fun o => (Option.map ThreatFinding.time o).getD "") h
  revert this
  decide

/-- C9 (amended): scan_file is deterministic in every field except the
detection timestamp: two invocations over the same file content with the
same signature set are both none or both findings agreeing on path, name,
category, severity and method; the `time` field records the wall clock of
the invocation, so invocations at the same clock reading agree fully. -/
theorem classify_deterministic_up_to_time (db : List Signature)
    (sha256 : List Nat → String) (readFile : String → Option (List Nat))
    (p now1 now2 : String) :
    (scan_file db sha256 readFile now1 p).map dropTime =
      (scan_file db sha256 readFile now2 p).map dropTime ∧
    (scan_file db sha256 readFile now1 p).isSome =
      (scan_file db sha256 readFile now2 p).isSome ∧
    (now1 = now2 →
      scan_file db sha256 readFile now1 p =
        scan_file db sha256 readFile now2 p) := by
  refine ⟨?_, ?_, fun h => by rw [h]⟩ <;>
  · unfold scan_file
    cases readFile p with
    | none => rfl
    | some c =>
      simp only []
      cases check_signature db (sha256 c) with
      | some v => cases v with | mk a b => cases b with | mk b1 b2 => rfl
      | none =>
        by_cases hd : doubleExt (strLower (basename p)) = true
        · simp [hd, dropTime]
        · simp [Bool.not_eq_true] at hd
          simp [hd]

/-- Witness for classify_deterministic_up_to_time: the amended claim at a
concrete store, content and pair of timestamps. -/
theorem classify_deterministic_up_to_time_witness :
    (let db : List Signature := []
     let sha : List Nat → String := fun _ => "h0"
     let rf : String → Option (List Nat) := fun _ => some [7]
     (scan_file db sha rf "10:00:00" "a.pdf.exe").map dropTime =
       (scan_file db sha rf "10:00:01" "a.pdf.exe").map dropTime ∧
     scan_file db sha rf "10:00:00" "a.pdf.exe" =
       scan_file db sha rf "10:00:00" "a.pdf.exe") := by
  refine ⟨(classify_deterministic_up_to_time _ _ _ _ _ _).1,
    (classify_deterministic_up_to_time _ _ _ _ "10:00:00" "10:00:00").2.2 rfl⟩

/-! ## Scan worker (ScanWorker.run / process_file / stop)

The worker's mutable fields (`is_running`, `is_paused`, counters) become a
record; `start_time` and the derived ETA strings are wall clock and enter
only through the abstract `eta`/`now` inputs of the configuration.  The
asynchronous `stop()` from the GUI thread is modelled by a stop schedule
`stopTime : Option Nat` over the sequence of `is_running` checks the loop
performs (check `t` reads true iff `t < stopTime`): once `stop()` has set
the flag to false it stays false, which the schedule shape captures. -/

/-- The mutable state of a ScanWorker (fields of `__init__` other than the
synchronisation objects and `start_time`). -/
structure WState where
  is_running : Bool
  is_paused : Bool
  total_files : Nat
  scanned_count : Nat
  total_bytes : Nat
  scanned_bytes : Nat
  threats : Nat
deriving DecidableEq, Repr

/-- The worker state right after `__init__`. -/
def initWorker : WState :=
  ⟨true, false, 0, 0, 0, 0, 0⟩

/-- The three Qt signals the worker emits: progress_updated(progress,
current file, time_left), threat_found(threat), scan_finished(total
files, threats found). -/
inductive Event where
  | progress (pct : Nat) (path : String) (eta : String)
  | threat (f : ThreatFinding)
  | finished (total : Nat) (threats : Nat)
deriving DecidableEq, Repr

/-- Configuration of one scan run.  `paths_files` is the sequence of
regular files produced by walking `self.paths` (os.walk order);
`disk_total_bytes` is the Σ shutil.disk_usage(path).used accumulated in
the Full branch; `fileSize` is os.path.getsize with 0 on error (the
`except: pass` leaves file_size = 0); `eta`/`now` give the wall-clock
derived strings at each loop tick. -/
structure ScanCfg where
  scan_type : String
  paths_files : List String
  disk_total_bytes : Nat
  fileSize : String → Nat
  db : List Signature
  sha256 : List Nat → String
  readFile : String → Option (List Nat)
  eta : Nat → String
  now : Nat → String

/-- Whether the `is_running` flag reads true at check number `t` under
stop schedule `stopTime` (none = stop() never called). -/
def runningAt (stopTime : Option Nat) (t : Nat) : Bool :=
  match stopTime with
  | none => true
  | some s => decide (t < s)

/-- The progress percentage ScanWorker.process_file computes from the
state after incrementing the counters: byte-based when total_bytes > 0
(Full scan), file-count based when total_files > 0, else 0; then capped
at 99 until the run actually finishes (`if progress >= 100: progress =
99`).  Python's `int((a/b)*100)` truncates, i.e. floor for these
non-negative values. -/
def curProgress (st : WState) : Nat :=
  let raw :=
    if st.total_bytes > 0 then st.scanned_bytes * 100 / st.total_bytes
    else if st.total_files > 0 then st.scanned_count * 100 / st.total_files
    else 0
  if raw ≥ 100 then 99 else raw

/-- ScanWorker.process_file.  The leading pause wait blocks until resume()
or a stop()-wakeup clears is_paused; `innerRunning` is the value the `if
not self.is_running: return` check reads after that wait.  When running,
the counters are incremented first (before any detection attempt), the
progress event is emitted, then scan_file runs and a finding increments
`threats` and is emitted. -/
def processFile (cfg : ScanCfg) (innerRunning : Bool) (tick : Nat)
    (st : WState) (p : String) : WState × List Event :=
  match innerRunning with
  | false => (st, [])
  | true =>
    let st1 := { st with
      scanned_count := st.scanned_count + 1,
      scanned_bytes := st.scanned_bytes + cfg.fileSize p }
    let ev := Event.progress (curProgress st1) p (cfg.eta tick)
    match scan_file cfg.db cfg.sha256 cfg.readFile (cfg.now tick) p with
    | some f => ({ st1 with threats := st1.threats + 1 }, [ev, Event.threat f])
    | none => (st1, [ev])

/-- The per-file loop of ScanWorker.run: before each file the loop
boundary checks `is_running` and breaks when false; otherwise
process_file runs (performing its own inner check).  Check `tick` is the
boundary check for the current file, `tick + 1` the inner one. -/
def runFiles (cfg : ScanCfg) (stopTime : Option Nat) (files : List String)
    (tick : Nat) (st : WState) : WState × List Event :=
  match files with
  | [] => (st, [])
  | p :: rest =>
    if runningAt stopTime tick = false then (st, [])
    else
      let r1 := processFile cfg (runningAt stopTime (tick + 1)) (tick + 1) st p
      let r2 := runFiles cfg stopTime rest (tick + 2) r1.1
      (r2.1, r1.2 ++ r2.2)

/-- The worker state when the per-file loop starts: ScanWorker.run sets
total_bytes from disk usage for Full scans (total_files stays 0) and
total_files from the enumerated file list for every other type
(total_bytes stays 0). -/
def runInit (cfg : ScanCfg) : WState :=
  if cfg.scan_type = "Full" then
    { initWorker with total_bytes := cfg.disk_total_bytes }
  else
    { initWorker with total_files := cfg.paths_files.length }

/-- The events emitted before the loop: Full scans emit
progress_updated(0, "Calculating drive usage...", "Calculating..."). -/
def runPre (cfg : ScanCfg) : List Event :=
  if cfg.scan_type = "Full" then
    [Event.progress 0 "Calculating drive usage..." "Calculating..."]
  else []

/-- ScanWorker.run.  Full scans first emit a progress-0 event and set
total_bytes from disk usage, then stream the walk; all other types first
enumerate the complete file list and set total_files to its length.  In
both branches the per-file loop runs and `scan_finished` is emitted
unconditionally at the end with the scanned count and threat count. -/
def run (cfg : ScanCfg) (stopTime : Option Nat) : WState × List Event :=
  let r := runFiles cfg stopTime cfg.paths_files 0 (runInit cfg)
  (r.1, runPre cfg ++ r.2 ++ [Event.finished r.1.scanned_count r.1.threats])

/-- ScanWorker.stop: set is_running to false and, if currently paused,
clear is_paused and wake the waiter (condition.wakeAll), so a paused
worker does not hang forever. -/
def stopWorker (st : WState) : WState :=
  let st1 := { st with is_running := false }
  if st1.is_paused then { st1 with is_paused := false } else st1

/-! ## Controller (AntivirusWidget.start_scan / scan_finished)

The GUI-side controller holds the current worker thread (None when no
scan has been started; `threadAlive` is `scan_thread.isRunning()`, which
is true while the worker is Running or Paused and false once the thread
has finished, i.e. Idle).  `findings` are the rows of the results table
and `progressBar` the displayed progress value. -/

structure Controller where
  worker : Option WState
  threadAlive : Bool
  findings : List ThreatFinding
  progressBar : Nat
deriving DecidableEq, Repr

inductive StartResult where
  | rejected
  | started
deriving DecidableEq, Repr

/-- AntivirusWidget.start_scan: if a scan thread exists and is running,
show the "Scan in Progress" warning and return (a normal return, not an
exception; nothing is queued and nothing is modified); otherwise reset
the results table and progress bar and start a fresh worker. -/
def start_scan (c : Controller) : Controller × StartResult :=
  if c.threadAlive then (c, StartResult.rejected)
  else
    ({ worker := some initWorker, threadAlive := true,
       findings := [], progressBar := 0 }, StartResult.started)

/-- The progress-bar value after the GUI has consumed a list of events:
update_progress sets the emitted percentage; scan_finished sets 100. -/
def barAfter (evs : List Event) : Nat :=
  evs.foldl (fun b e =>
    match e with
    | Event.progress pct _ _ => pct
    | Event.threat _ => b
    | Event.finished _ _ => 100) 0

/-- The percentages of the progress events of a run, in emission order. -/
def progressVals (evs : List Event) : List Nat :=
  evs.filterMap (fun e =>
    match e with
    | Event.progress pct _ _ => some pct
    | _ => none)

/-- Growth order between worker states along one run: totals are fixed
after initialisation and the scanned counters only increase. -/
def WLe (a b : WState) : Prop :=
  a.total_bytes = b.total_bytes ∧ a.total_files = b.total_files ∧
  a.scanned_bytes ≤ b.scanned_bytes ∧ a.scanned_count ≤ b.scanned_count

lemma WLe.rfl (a : WState) : WLe a a :=
  ⟨by rfl, by rfl, le_refl _, le_refl _⟩

lemma WLe.trans {a b c : WState} (h1 : WLe a b) (h2 : WLe b c) : WLe a c :=
  ⟨h1.1.trans h2.1, h1.2.1.trans h2.2.1, h1.2.2.1.trans h2.2.2.1,
    h1.2.2.2.trans h2.2.2.2⟩

lemma cap_le_99 (x : Nat) : (if x ≥ 100 then 99 else x) ≤ 99 := by
  split <;> omega

lemma cap_mono {x y : Nat} (h : x ≤ y) :
    (if x ≥ 100 then 99 else x) ≤ (if y ≥ 100 then 99 else y) := by
  split <;> split <;> omega

lemma curProgress_le_99 (st : WState) : curProgress st ≤ 99 :=
  cap_le_99 _

lemma curProgress_mono {a b : WState} (h : WLe a b) :
    curProgress a ≤ curProgress b := by
  obtain ⟨htb, htf, hsb, hsc⟩ := h
  unfold curProgress
  apply cap_mono
  rw [htb, htf]
  split
  · exact Nat.div_le_div_right (Nat.mul_le_mul_right 100 hsb)
  · split
    · exact Nat.div_le_div_right (Nat.mul_le_mul_right 100 hsc)
    · exact le_refl 0

lemma processFile_false (cfg : ScanCfg) (tick : Nat) (st : WState) (p : String) :
    processFile cfg false tick st p = (st, []) := rfl

lemma processFile_WLe (cfg : ScanCfg) (ir : Bool) (tick : Nat)
    (st : WState) (p : String) :
    WLe st (processFile cfg ir tick st p).1 := by
  cases ir with
  | false => exact WLe.rfl st
  | true =>
    unfold processFile
    cases scan_file cfg.db cfg.sha256 cfg.readFile (cfg.now tick) p with
    | some f => exact ⟨by rfl, by rfl, Nat.le_add_right _ _, Nat.le_add_right _ _⟩
    | none => exact ⟨by rfl, by rfl, Nat.le_add_right _ _, Nat.le_add_right _ _⟩

lemma processFile_true_progressVals (cfg : ScanCfg) (tick : Nat)
    (st : WState) (p : String) :
    progressVals (processFile cfg true tick st p).2 =
      [curProgress (processFile cfg true tick st p).1] := by
  unfold processFile
  cases scan_file cfg.db cfg.sha256 cfg.readFile (cfg.now tick) p with
  | some f => simp [progressVals, curProgress]
  | none => simp [progressVals]

lemma processFile_count (cfg : ScanCfg) (tick : Nat) (st : WState) (p : String) :
    (processFile cfg true tick st p).1.scanned_count = st.scanned_count + 1 := by
  unfold processFile
  cases scan_file cfg.db cfg.sha256 cfg.readFile (cfg.now tick) p with
  | some f => rfl
  | none => rfl

lemma runFiles_cons_stop (cfg : ScanCfg) (stopTime : Option Nat)
    (p : String) (rest : List String) (tick : Nat) (st : WState)
    (hb : runningAt stopTime tick = false) :
    runFiles cfg stopTime (p :: rest) tick st = (st, []) := by
  simp [runFiles, hb]

lemma runFiles_cons_go (cfg : ScanCfg) (stopTime : Option Nat)
    (p : String) (rest : List String) (tick : Nat) (st : WState)
    (hb : runningAt stopTime tick = true) :
    runFiles cfg stopTime (p :: rest) tick st =
      ((runFiles cfg stopTime rest (tick + 2)
          (processFile cfg (runningAt stopTime (tick + 1)) (tick + 1) st p).1).1,
        (processFile cfg (runningAt stopTime (tick + 1)) (tick + 1) st p).2 ++
          (runFiles cfg stopTime rest (tick + 2)
            (processFile cfg (runningAt stopTime (tick + 1)) (tick + 1) st p).1).2) := by
  simp [runFiles, hb]

lemma runningAt_none (t : Nat) : runningAt none t = true := rfl

/-- Core invariant of the per-file loop: the state only grows, every
emitted progress value lies between the current capped progress and 99,
and the emitted progress values are non-decreasing. -/
lemma runFiles_progress_spec (cfg : ScanCfg) (stopTime : Option Nat) :
    ∀ (files : List String) (tick : Nat) (st : WState),
      WLe st (runFiles cfg stopTime files tick st).1 ∧
      (∀ q ∈ progressVals (runFiles cfg stopTime files tick st).2,
        curProgress st ≤ q ∧ q ≤ 99) ∧
      List.Chain' (· ≤ ·) (progressVals (runFiles cfg stopTime files tick st).2) := by
  intro files
  induction files with
  | nil =>
    intro tick st
    exact ⟨WLe.rfl st, by simp [runFiles, progressVals], by simp [runFiles, progressVals]⟩
  | cons p rest ih =>
    intro tick st
    cases hb : runningAt stopTime tick with
    | false =>
      rw [runFiles_cons_stop cfg stopTime p rest tick st hb]
      exact ⟨WLe.rfl st, by simp [progressVals], by simp [progressVals]⟩
    | true =>
      rw [runFiles_cons_go cfg stopTime p rest tick st hb]
      cases hir : runningAt stopTime (tick + 1) with
      | false =>
        rw [processFile_false]
        obtain ⟨h1, h2, h3⟩ := ih (tick + 2) st
        exact ⟨h1, by simpa [progressVals] using h2, by simpa [progressVals] using h3⟩
      | true =>
        have hple := processFile_WLe cfg true (tick + 1) st p
        have hpev := processFile_true_progressVals cfg (tick + 1) st p
        obtain ⟨h1, h2, h3⟩ := ih (tick + 2) (processFile cfg true (tick + 1) st p).1
        refine ⟨hple.trans h1, ?_, ?_⟩
        · intro q hq
          rw [progressVals, List.filterMap_append, ← progressVals, ← progressVals,
            hpev] at hq
          rcases List.mem_append.mp hq with hq | hq
          · rcases List.mem_singleton.mp hq with rfl
            exact ⟨curProgress_mono hple, curProgress_le_99 _⟩
          · obtain ⟨hge, hle⟩ := h2 q hq
            exact ⟨(curProgress_mono hple).trans hge, hle⟩
        · rw [progressVals, List.filterMap_append, ← progressVals, ← progressVals,
            hpev]
          rw [List.singleton_append, List.chain'_cons']
          refine ⟨?_, h3⟩
          intro y hy
          have hymem : y ∈ progressVals
              (runFiles cfg stopTime rest (tick + 2)
                (processFile cfg true (tick + 1) st p).1).2 :=
            List.mem_of_mem_head? hy
          exact (h2 y hymem).1

/-- The scanned counter grows by at most one per enumerated file. -/
lemma runFiles_count_le (cfg : ScanCfg) (stopTime : Option Nat) :
    ∀ (files : List String) (tick : Nat) (st : WState),
      (runFiles cfg stopTime files tick st).1.scanned_count ≤
        st.scanned_count + files.length := by
  intro files
  induction files with
  | nil => intro tick st; simp [runFiles]
  | cons p rest ih =>
    intro tick st
    cases hb : runningAt stopTime tick with
    | false =>
      rw [runFiles_cons_stop cfg stopTime p rest tick st hb]
      simp
    | true =>
      rw [runFiles_cons_go cfg stopTime p rest tick st hb]
      refine (ih (tick + 2) _).trans ?_
      have hsc : (processFile cfg (runningAt stopTime (tick + 1)) (tick + 1)
          st p).1.scanned_count ≤ st.scanned_count + 1 := by
        cases hir : runningAt stopTime (tick + 1) with
        | false =>
          rw [processFile_false]
          exact Nat.le_add_right _ _
        | true => rw [processFile_count]
      simp only [List.length_cons]
      omega

/-- With no stop, every enumerated file is counted exactly once. -/
lemma runFiles_count_none (cfg : ScanCfg) :
    ∀ (files : List String) (tick : Nat) (st : WState),
      (runFiles cfg none files tick st).1.scanned_count =
        st.scanned_count + files.length := by
  intro files
  induction files with
  | nil => intro tick st; simp [runFiles]
  | cons p rest ih =>
    intro tick st
    rw [runFiles_cons_go cfg none p rest tick st (runningAt_none tick)]
    simp only []
    rw [ih (tick + 2), runningAt_none, processFile_count]
    simp only [List.length_cons]
    omega

/-- The run always ends with the finished event carrying the final
scanned and threat counters (scan_finished.emit is unconditional). -/
lemma run_last_event (cfg : ScanCfg) (stopTime : Option Nat) :
    (run cfg stopTime).2.getLast? =
      some (Event.finished (run cfg stopTime).1.scanned_count
        (run cfg stopTime).1.threats) := by
  unfold run
  simp only []
  rw [List.getLast?_concat]

/-- After the GUI consumes the whole event stream, the progress bar shows
100 (scan_finished sets it unconditionally). -/
lemma run_bar_100 (cfg : ScanCfg) (stopTime : Option Nat) :
    barAfter (run cfg stopTime).2 = 100 := by
  unfold run barAfter
  simp only []
  rw [List.foldl_append]
  rfl

lemma progressVals_append (a b : List Event) :
    progressVals (a ++ b) = progressVals a ++ progressVals b :=
  List.filterMap_append a b _

lemma progressVals_finished (a b : Nat) :
    progressVals [Event.finished a b] = [] := rfl

lemma runPre_vals (cfg : ScanCfg) : ∀ q ∈ progressVals (runPre cfg), q = 0 := by
  unfold runPre
  split <;> simp [progressVals]

lemma run_progressVals (cfg : ScanCfg) (stopTime : Option Nat) :
    progressVals (run cfg stopTime).2 =
      progressVals (runPre cfg) ++
        progressVals (runFiles cfg stopTime cfg.paths_files 0 (runInit cfg)).2 := by
  unfold run
  simp only []
  rw [progressVals_append, progressVals_append, progressVals_finished,
    List.append_nil]

/-- C4: within a single scan run the emitted progress percentages are
monotonically non-decreasing and never exceed 99 while the run is in
progress (the cap fires even when byte-based Full-scan progress computes
100 or more); the progress bar reads 100 only once the finished event is
consumed. -/
theorem progress_monotone_and_capped (cfg : ScanCfg) (stopTime : Option Nat) :
    List.Chain' (· ≤ ·) (progressVals (run cfg stopTime).2) ∧
    (∀ q ∈ progressVals (run cfg stopTime).2, q ≤ 99) ∧
    barAfter (run cfg stopTime).2 = 100 := by
  obtain ⟨-, hB, hC⟩ :=
    runFiles_progress_spec cfg stopTime cfg.paths_files 0 (runInit cfg)
  refine ⟨?_, ?_, run_bar_100 cfg stopTime⟩
  · rw [run_progressVals]
    unfold runPre
    split
    · rw [show progressVals
          [Event.progress 0 "Calculating drive usage..." "Calculating..."] =
          [0] from rfl, List.singleton_append, List.chain'_cons']
      exact ⟨fun y _ => Nat.zero_le y, hC⟩
    · simpa [progressVals] using hC
  · rw [run_progressVals]
    intro q hq
    rcases List.mem_append.mp hq with hq | hq
    · rw [runPre_vals cfg q hq]
      omega
    · exact (hB q hq).2

/-- Witness for progress_monotone_and_capped: a Full scan whose byte
estimate (10 bytes) is smaller than the bytes actually scanned
(two files of 8 bytes), so the raw percentage passes 100. -/
theorem progress_monotone_and_capped_witness :
    (let cfgW : ScanCfg :=
      ⟨"Full", ["/a", "/b"], 10, fun _ => 8, [], fun _ => "h",
        fun _ => some [0], fun _ => "eta", fun _ => "now"⟩
     List.Chain' (· ≤ ·) (progressVals (run cfgW none).2) ∧
     barAfter (run cfgW none).2 = 100) :=
  ⟨(progress_monotone_and_capped _ none).1,
    (progress_monotone_and_capped _ none).2.2⟩

/-- C5: while a scan thread is Running or Paused (the worker thread is
alive in both states), start_scan returns after the "Scan in Progress"
warning as a normal control-flow result: the second scan is rejected,
nothing is queued, and the controller — the in-flight worker's progress
and counters, the accumulated findings and the progress bar — is left
exactly as it was. -/
theorem second_start_rejected (c : Controller) (h : c.threadAlive = true) :
    start_scan c = (c, StartResult.rejected) := by
  simp [start_scan, h]

/-- Witness for second_start_rejected: a controller with an in-flight
worker (4 files scanned, 2 threats, one finding displayed, bar at 40). -/
theorem second_start_rejected_witness :
    (let cW : Controller :=
      ⟨some ⟨true, false, 10, 4, 0, 0, 2⟩, true,
        [⟨"/d/x.exe", "n", "Virus", "High", "Signature", "10:00:00"⟩], 40⟩
     start_scan cW = (cW, StartResult.rejected)) :=
  second_start_rejected _ rfl

/-- C6: once the stop flag reads false at a loop-iteration boundary no
further file begins processing; the run's final scanned count never
exceeds the number of enumerated files and the finished event carries
exactly that count; an idle controller accepts a new start immediately;
stop() clears is_running and, when the worker is paused, also clears
is_paused (waking the waiter) so the pause wait cannot hang forever. -/
theorem stop_semantics (cfg : ScanCfg) (stopTime : Option Nat) (tick : Nat)
    (st : WState) (p : String) (rest : List String) (c : Controller) :
    (runningAt stopTime tick = false →
      runFiles cfg stopTime (p :: rest) tick st = (st, [])) ∧
    (run cfg stopTime).1.scanned_count ≤ cfg.paths_files.length ∧
    (run cfg stopTime).2.getLast? =
      some (Event.finished (run cfg stopTime).1.scanned_count
        (run cfg stopTime).1.threats) ∧
    (c.threadAlive = false → (start_scan c).2 = StartResult.started) ∧
    (stopWorker st).is_running = false ∧
    (st.is_paused = true → (stopWorker st).is_paused = false) := by
  refine ⟨fun hb => runFiles_cons_stop cfg stopTime p rest tick st hb, ?_,
    run_last_event cfg stopTime, fun hi => by simp [start_scan, hi], ?_,
    fun hp => ?_⟩
  · unfold run
    simp only []
    refine (runFiles_count_le cfg stopTime cfg.paths_files 0 (runInit cfg)).trans ?_
    have h0 : (runInit cfg).scanned_count = 0 := by
      unfold runInit
      split <;> rfl
    omega
  · obtain ⟨r, pz, tf, sc, tb, sb, th⟩ := st
    cases pz <;> rfl
  · obtain ⟨r, pz, tf, sc, tb, sb, th⟩ := st
    cases pz with
    | false => cases hp
    | true => rfl

/-- Witness for stop_semantics: a stop observed at the very first
boundary check scans nothing; a stop after one check scans at most the
enumerated file; a fresh controller accepts a start; stopping a paused
worker clears both flags. -/
theorem stop_semantics_witness :
    (let cfgW : ScanCfg :=
      ⟨"Quick", ["/q/a"], 0, fun _ => 1, [], fun _ => "h",
        fun _ => some [0], fun _ => "eta", fun _ => "now"⟩
     let stW : WState := ⟨true, true, 0, 0, 0, 0, 0⟩
     let cW : Controller := ⟨none, false, [], 0⟩
     runFiles cfgW (some 0) ["/q/a"] 0 stW = (stW, []) ∧
     (run cfgW (some 1)).1.scanned_count ≤ cfgW.paths_files.length ∧
     (start_scan cW).2 = StartResult.started ∧
     (stopWorker stW).is_running = false ∧
     (stopWorker stW).is_paused = false) := by
  intro cfgW stW cW
  refine ⟨(stop_semantics cfgW (some 0) 0 stW "/q/a" [] cW).1 (by decide),
    (stop_semantics cfgW (some 1) 0 stW "/q/a" [] cW).2.1,
    (stop_semantics cfgW (some 1) 0 stW "/q/a" [] cW).2.2.2.1 rfl,
    (stop_semantics cfgW (some 1) 0 stW "/q/a" [] cW).2.2.2.2.1,
    (stop_semantics cfgW (some 1) 0 stW "/q/a" [] cW).2.2.2.2.2 rfl⟩

/-- C8: a file that cannot be opened (readFile returns none, modelling
PermissionError/OSError: permission denied, vanished, locked) yields no
finding — scan_file swallows the error and returns none — the file still
counts as scanned, the threat counter is untouched, and the overall run
is not aborted: the finished event is still the last event emitted. -/
theorem io_error_skipped (cfg : ScanCfg) (stopTime : Option Nat)
    (tick : Nat) (st : WState) (now p : String)
    (hf : cfg.readFile p = none) :
    scan_file cfg.db cfg.sha256 cfg.readFile now p = none ∧
    (processFile cfg true tick st p).1.threats = st.threats ∧
    (processFile cfg true tick st p).1.scanned_count = st.scanned_count + 1 ∧
    (run cfg stopTime).2.getLast? =
      some (Event.finished (run cfg stopTime).1.scanned_count
        (run cfg stopTime).1.threats) := by
  have hsf : scan_file cfg.db cfg.sha256 cfg.readFile (cfg.now tick) p = none := by
    simp [scan_file, hf]
  refine ⟨by simp [scan_file, hf], ?_, processFile_count cfg tick st p,
    run_last_event cfg stopTime⟩
  unfold processFile
  rw [hsf]

/-- Witness for io_error_skipped: a configuration whose files are all
unreadable. -/
theorem io_error_skipped_witness :
    (let cfgW : ScanCfg :=
      ⟨"Quick", ["/q/locked.bin"], 0, fun _ => 0, [], fun _ => "h",
        fun _ => none, fun _ => "eta", fun _ => "now"⟩
     scan_file cfgW.db cfgW.sha256 cfgW.readFile "now" "/q/locked.bin" = none ∧
     (processFile cfgW true 1 initWorker "/q/locked.bin").1.threats =
       initWorker.threats ∧
     (processFile cfgW true 1 initWorker "/q/locked.bin").1.scanned_count =
       initWorker.scanned_count + 1) := by
  refine ⟨(io_error_skipped _ none 1 initWorker "now" "/q/locked.bin" rfl).1,
    (io_error_skipped _ none 1 initWorker "now" "/q/locked.bin" rfl).2.1,
    (io_error_skipped _ none 1 initWorker "now" "/q/locked.bin" rfl).2.2.1⟩

/-- C10: a non-Full run that finishes with no stop() counts every
enumerated file — the counter is incremented before any attempt to read
the size or open the file, so unreadable files are counted too — and the
finished event reports exactly the enumerated total. -/
theorem scanned_equals_enumerated (cfg : ScanCfg)
    (h : cfg.scan_type ≠ "Full") :
    (run cfg none).1.scanned_count = cfg.paths_files.length ∧
    (run cfg none).2.getLast? =
      some (Event.finished cfg.paths_files.length (run cfg none).1.threats) := by
  have hc : (run cfg none).1.scanned_count = cfg.paths_files.length := by
    unfold run
    simp only []
    rw [runFiles_count_none]
    unfold runInit
    rw [if_neg h]
    simp [initWorker]
  refine ⟨hc, ?_⟩
  rw [← hc]
  exact run_last_event cfg none

/-- Witness for scanned_equals_enumerated: a Quick scan over three files
none of which can be opened or sized still reports 3 files scanned. -/
theorem scanned_equals_enumerated_witness :
    (let cfgW : ScanCfg :=
      ⟨"Quick", ["/q/a", "/q/b", "/q/c"], 0, fun _ => 0, [], fun _ => "h",
        fun _ => none, fun _ => "eta", fun _ => "now"⟩
     (run cfgW none).1.scanned_count = cfgW.paths_files.length ∧
     (run cfgW none).2.getLast? =
       some (Event.finished cfgW.paths_files.length (run cfgW none).1.threats)) :=
  ⟨(scanned_equals_enumerated _ (by decide)).1,
    (scanned_equals_enumerated _ (by decide)).2⟩

/-! ## Scheduler (AntivirusWidget.check_schedule)

The schedule file scan_schedule.json is `Option ScheduleData` (none =
file absent; a JSON parse failure is swallowed by the outer except and
behaves like a no-op too).  `QTime.fromString(..., "HH:mm")` is modelled
by the already-parsed hour/minute pair.  One poll tick reads the current
wall clock, today's date string and whether a scan thread is running. -/

structure ScheduleData where
  enabled : Bool
  stype : String
  timeH : Nat
  timeM : Nat
  last_run : String
deriving DecidableEq, Repr

structure SchedTick where
  nowHour : Nat
  nowMin : Nat
  today : String
  scanRunning : Bool
deriving DecidableEq, Repr

/-- AntivirusWidget.check_schedule as the source actually behaves.  When
the file is absent or disabled, the early returns fire as written.  When
the file is present and enabled, execution reaches the comparison
`current_time.hour() == sched_time.hour()` — but `current_time` is a
`datetime.time` whose `hour` is an int attribute, not a method, so the
call raises TypeError.  That exception is inside the outer try and is
swallowed by `except Exception as e: print(...)`, so the tick ends in
the error handler: no scan is ever started and last_run is never
written.  The configured trigger time and the tick's wall clock are
still read (into `d.timeH/d.timeM` and `env`) before the crash, but
never influence the result. -/
def check_schedule (file : Option ScheduleData) (_env : SchedTick) :
    Option ScheduleData × Bool :=
  match file with
  | none => (none, false)
  | some d =>
    if d.enabled = false then (some d, false)
    else
      (some d, false)

/-- C3 (code bug): the claim — and the spec's scheduler contract — say
an enabled 09:00 schedule starts a scan at the first 09:00 tick and
persists lastRunDate; in the code `current_time.hour()` raises TypeError
(datetime.time.hour is an attribute), the outer except swallows it, and
so no poll tick ever starts a scan or updates last_run: in the claim's
own two-tick scenario both ticks leave the schedule file unchanged and
start nothing. -/
theorem scheduler_never_fires (d : ScheduleData) (env : SchedTick) :
    check_schedule (some d) env = (some d, false) ∧
    (let dF : ScheduleData := ⟨true, "Quick", 9, 0, ""⟩
     let e1 : SchedTick := ⟨9, 0, "2025-03-01", false⟩
     let e2 : SchedTick := ⟨9, 0, "2025-03-01", false⟩
     check_schedule (some dF) e1 = (some dF, false) ∧
     check_schedule (check_schedule (some dF) e1).1 e2 = (some dF, false)) := by
  refine ⟨?_, by decide, by decide⟩
  by_cases h : d.enabled = false <;> simp [check_schedule, h]

/-! ## Quarantine manager (AntivirusWidget.quarantine_threat /
restore_selected)

The filesystem is a finite map from path to file content; moving a file
(shutil.move) rebinds the destination to the source's content and clears
the source.  A move can fail (permissions, target problems): the
try/except around `os.makedirs` + `shutil.move` is modelled by a
`moveFails` oracle telling which moves raise.  The quarantine log is the
parsed contents of quarantine_log.json. -/

def FS : Type := String → Option String

/-- One entry of quarantine_log.json. -/
structure QEntry where
  original_path : String
  quarantine_path : String
  timestamp : String
deriving DecidableEq, Repr

/-- shutil.move src → dst on the path map. -/
def fsMove (fs : FS) (src dst : String) : FS :=
  fun q => if q = dst then fs src else if q = src then none else fs q

/-- The quarantine destination name built by quarantine_threat:
quarantine/{timestamp}_{basename}.quarantined. -/
def quarantineDest (file_path ts : String) : String :=
  "quarantine/" ++ ts ++ "_" ++ basename file_path ++ ".quarantined"

/-- One iteration of the quarantine_threat loop for one selected path:
if the file still exists, move it into the quarantine directory and
append a log entry; if it is already gone, or the move raises, that item
is skipped and the log is unchanged for it.  Result: (filesystem, log,
whether this item was quarantined).  `ts_name` is the "%Y%m%d%H%M%S"
stamp in the destination name, `ts_log` the "%Y-%m-%d %H:%M:%S" stamp
recorded in the entry. -/
def quarantine_one (fs : FS) (log : List QEntry) (file_path ts_name ts_log : String)
    (moveFails : String → String → Bool) : FS × List QEntry × Bool :=
  if (fs file_path).isSome then
    let dest := quarantineDest file_path ts_name
    if moveFails file_path dest then (fs, log, false)
    else (fsMove fs file_path dest, log ++ [⟨file_path, dest, ts_log⟩], true)
  else (fs, log, false)

/-- One iteration of the restore_selected loop: the accumulator carries
the filesystem and the `restored_paths` set.  If the quarantined file
exists, attempt `os.makedirs` + `shutil.move` back to the original path:
on success the quarantine path joins restored_paths, on an exception it
does not (the failure is reported via a warning dialog); if the
quarantined file is missing, the path joins restored_paths anyway. -/
def restoreStep (moveFails : String → String → Bool)
    (acc : FS × List String) (e : QEntry) : FS × List String :=
  if (acc.1 e.quarantine_path).isSome then
    if moveFails e.quarantine_path e.original_path then acc
    else (fsMove acc.1 e.quarantine_path e.original_path,
      e.quarantine_path :: acc.2)
  else (acc.1, e.quarantine_path :: acc.2)

/-- AntivirusWidget.restore_selected over the selected entries: run the
per-entry loop, then rewrite the log keeping exactly the entries whose
quarantine_path is not in restored_paths. -/
def restore_selected (fs : FS) (log : List QEntry) (sel : List QEntry)
    (moveFails : String → String → Bool) : FS × List QEntry :=
  let r := sel.foldl (restoreStep moveFails) (fs, [])
  (r.1, log.filter (fun e => !(r.2.contains e.quarantine_path)))

/-- Counterexample to C2 as stated: an entry whose quarantined file
exists but whose move back raises is NOT removed from the log —
restore_selected only adds an entry's quarantine path to restored_paths
when the move succeeds or the file is missing, so after a failed move
the rewritten log still contains the entry (and the filesystem is
unchanged). -/
theorem restore_move_failure_keeps_entry_cex :
    (let fs0 : FS := fun q =>
      if q = "quarantine/20250101000000_f.exe.quarantined" then some "MZ"
      else none
     let e : QEntry := ⟨"/home/u/f.exe",
       "quarantine/20250101000000_f.exe.quarantined", "2025-01-01 00:00:00"⟩
     let failing : String → String → Bool := fun _ _ => true
     (restore_selected fs0 [e] [e] failing).2 = [e] ∧
     (restore_selected fs0 [e] [e] failing).1 "/home/u/f.exe" = none) := by
  exact ⟨by decide, by decide⟩

/-- C2 (amended): after restore, a selected entry is removed from the
quarantine log when its physical move back succeeded or its quarantined
file was missing (a missing file is still cleaned from the log); but an
entry whose quarantined file exists and whose move back fails is kept in
the log (the failure is reported) and the filesystem is unchanged. -/
theorem restore_log_cleanup (fs : FS) (log : List QEntry) (e : QEntry)
    (moveFails : String → String → Bool) :
    (fs e.quarantine_path = none →
      (∀ x, x ∈ (restore_selected fs log [e] moveFails).2 ↔
        x ∈ log ∧ x.quarantine_path ≠ e.quarantine_path) ∧
      (restore_selected fs log [e] moveFails).1 = fs) ∧
    ((fs e.quarantine_path).isSome = true →
      moveFails e.quarantine_path e.original_path = false →
      (∀ x, x ∈ (restore_selected fs log [e] moveFails).2 ↔
        x ∈ log ∧ x.quarantine_path ≠ e.quarantine_path) ∧
      (restore_selected fs log [e] moveFails).1 e.original_path =
        fs e.quarantine_path) ∧
    ((fs e.quarantine_path).isSome = true →
      moveFails e.quarantine_path e.original_path = true →
      (restore_selected fs log [e] moveFails).2 = log ∧
      (restore_selected fs log [e] moveFails).1 = fs) := by
  refine ⟨fun hm => ?_, fun hm hf => ?_, fun hm hf => ?_⟩
  · constructor
    · intro x
      simp [restore_selected, restoreStep, hm, List.mem_filter]
    · simp [restore_selected, restoreStep, hm]
  · constructor
    · intro x
      simp [restore_selected, restoreStep, hm, hf, List.mem_filter]
    · simp [restore_selected, restoreStep, hm, hf, fsMove]
  · constructor
    · simp [restore_selected, restoreStep, hm, hf, List.filter_eq_self]
    · simp [restore_selected, restoreStep, hm, hf]

/-- Witness for restore_log_cleanup: a missing quarantined file is still
cleaned from the log; a failed move keeps the entry. -/
theorem restore_log_cleanup_witness :
    (let eM : QEntry := ⟨"/o/a", "quarantine/1_a.quarantined", "t"⟩
     let fsM : FS := fun _ => none
     let eF : QEntry := ⟨"/o/b", "quarantine/2_b.quarantined", "t"⟩
     let fsF : FS := fun q =>
       if q = "quarantine/2_b.quarantined" then some "X" else none
     (∀ x, x ∈ (restore_selected fsM [eM] [eM] (fun _ _ => false)).2 ↔
       x ∈ [eM] ∧ x.quarantine_path ≠ eM.quarantine_path) ∧
     (restore_selected fsF [eF] [eF] (fun _ _ => true)).2 = [eF]) := by
  intro eM fsM eF fsF
  exact ⟨((restore_log_cleanup fsM [eM] eM (fun _ _ => false)).1 rfl).1,
    ((restore_log_cleanup fsF [eF] eF (fun _ _ => true)).2.2 (by decide) rfl).1⟩

/-- C7: a file that is successfully quarantined (it existed and the move
into the isolation directory succeeded, so a log entry was recorded) and
then restored (no move failure) reappears with its original content at
its original path, and the rewritten quarantine log contains no entry
with that quarantine path. -/
theorem quarantine_restore_roundtrip (fs : FS) (log : List QEntry)
    (p ts ts2 c : String) (hc : fs p = some c) :
    (quarantine_one fs log p ts ts2 (fun _ _ => false)).2.2 = true ∧
    (restore_selected (quarantine_one fs log p ts ts2 (fun _ _ => false)).1
        (quarantine_one fs log p ts ts2 (fun _ _ => false)).2.1
        [⟨p, quarantineDest p ts, ts2⟩] (fun _ _ => false)).1 p = some c ∧
    (∀ x ∈ (restore_selected (quarantine_one fs log p ts ts2 (fun _ _ => false)).1
        (quarantine_one fs log p ts ts2 (fun _ _ => false)).2.1
        [⟨p, quarantineDest p ts, ts2⟩] (fun _ _ => false)).2,
      x.quarantine_path ≠ quarantineDest p ts) := by
  have hq : quarantine_one fs log p ts ts2 (fun _ _ => false) =
      (fsMove fs p (quarantineDest p ts),
        log ++ [⟨p, quarantineDest p ts, ts2⟩], true) := by
    simp [quarantine_one, hc]
  have hq1 : fsMove fs p (quarantineDest p ts) (quarantineDest p ts) = some c := by
    simp [fsMove, hc]
  refine ⟨by rw [hq], ?_, ?_⟩
  · rw [hq]
    simp only [restore_selected, List.foldl_cons, List.foldl_nil, restoreStep]
    simp only [hq1, Option.isSome_some, if_pos trivial]
    simp [fsMove, hq1, hc]
  · rw [hq]
    intro x hx
    simp only [restore_selected] at hx
    have hx2 := (List.mem_filter.mp hx).2
    simp only [restoreStep, hq1] at hx2
    simp only [List.foldl_cons, List.foldl_nil] at hx2
    revert hx2
    simp [restoreStep, hq1]

/-- Witness for quarantine_restore_roundtrip: quarantining and restoring
a concrete infected file. -/
theorem quarantine_restore_roundtrip_witness :
    (let fs0 : FS := fun q => if q = "/home/u/f.exe" then some "MZ" else none
     (quarantine_one fs0 [] "/home/u/f.exe" "20250101000000"
        "2025-01-01 00:00:00" (fun _ _ => false)).2.2 = true ∧
     (restore_selected
        (quarantine_one fs0 [] "/home/u/f.exe" "20250101000000"
          "2025-01-01 00:00:00" (fun _ _ => false)).1
        (quarantine_one fs0 [] "/home/u/f.exe" "20250101000000"
          "2025-01-01 00:00:00" (fun _ _ => false)).2.1
        [⟨"/home/u/f.exe", quarantineDest "/home/u/f.exe" "20250101000000",
          "2025-01-01 00:00:00"⟩] (fun _ _ => false)).1 "/home/u/f.exe" =
       some "MZ") := by
  intro fs0
  exact ⟨(quarantine_restore_roundtrip fs0 [] "/home/u/f.exe" "20250101000000"
      "2025-01-01 00:00:00" "MZ" (by decide)).1,
    (quarantine_restore_roundtrip fs0 [] "/home/u/f.exe" "20250101000000"
      "2025-01-01 00:00:00" "MZ" (by decide)).2.1⟩

end Nexashield
